import Mathlib

/- Shallow embedding of the EcohSpeechWeb conversion / validation / transcription
pipeline: `src/app.py` (the debug variant) and `src/app_streamlit.py` (the batch
variant).  Python strings are modelled as `List Char`; the Python operations
`in`, `startswith` and `endswith` are modelled by the substring / prefix /
suffix tests below.  External effects (ffmpeg, pydub, the Google speech call,
the ambient-noise calibration and the on-disk temp files) are modelled as
oracles describing the outcome of each call, and the set of temporary files a
function leaves on disk is returned explicitly. -/

def hasPre {α : Type} [BEq α] : List α → List α → Bool
  | [], _ => true
  | _ :: _, [] => false
  | a :: as, b :: bs => a == b && hasPre as bs

def hasSub {α : Type} [BEq α] (p : List α) : List α → Bool
  | [] => hasPre p []
  | b :: bs => hasPre p (b :: bs) || hasSub p bs

def hasSuf {α : Type} [BEq α] (p l : List α) : Bool :=
  hasPre p.reverse l.reverse

def lowerChars (l : List Char) : List Char :=
  l.map Char.toLower

def hasDot : List Char → Bool
  | [] => false
  | c :: r => (c == '.') || hasDot r

/- ArtifactValidator: `verify_wav_file` in src/app.py (lines 127-169) reads the
WAV header and computes `duration = n_frames / float(framerate)`.  The flag
`valid` starts `True`, is cleared when `duration < 0.1` and cleared again when
`n_frames < 100`; channel count and sample rate only produce warning text.
`duration < 0.1` is the exact rational comparison `10 * frames < framerate`
(for the header ranges involved the float comparison agrees with the rational
one).  A `framerate` of 0 raises `ZeroDivisionError`, caught by the handler
that returns `valid = False`. -/

structure WavInfo where
  channels : Nat
  sampleWidth : Nat
  framerate : Nat
  frames : Nat
  size : Nat
deriving DecidableEq

def verify_wav_file (w : WavInfo) : Bool :=
  if w.framerate = 0 then
    false
  else if 10 * w.frames < w.framerate then
    false
  else if w.frames < 100 then
    false
  else
    true

/- Every call site of `verify_wav_file` in `convert_to_wav_debug` first checks
`os.path.getsize(wav_path) > 1000` (lines 259, 303, 326); an artifact failing
that size gate is discarded without further inspection. -/

def sizeGate (w : WavInfo) : Bool :=
  1000 < w.size

def artifactAccepted (w : WavInfo) : Bool :=
  sizeGate w && verify_wav_file w

/- ConversionStrategyChain: `convert_to_wav_debug` in src/app.py
(lines 171-362).  The four strategies, in source order. -/

inductive Strategy where
  | permissive
  | standard
  | pydub
  | twoStep
deriving DecidableEq

def is_whatsapp (fn : List Char) : Bool :=
  hasSub (("PTT-").toList) fn || hasSub (("WA").toList) fn ||
    hasSub (("AUD-").toList) fn

def is_opus (fn : List Char) : Bool :=
  hasSuf ((".opus").toList) (lowerChars fn) ||
    hasSuf ((".ogg").toList) (lowerChars fn) ||
    hasSuf ((".oga").toList) (lowerChars fn)

def strategiesFor (fn : List Char) : List Strategy :=
  (if is_opus fn || is_whatsapp fn then [Strategy.permissive] else []) ++
    [Strategy.standard, Strategy.pydub, Strategy.twoStep]

/- An attempt oracle: `some w` means the strategy ran to completion and wrote a
WAV whose header reads as `w`; `none` means the tool failed, timed out or threw
(in which case the loop moves on).  In the source each attempt that produced a
file goes through the `> 1000` size gate and then `verify_wav_file`; only a
valid verdict returns `wav_path`, everything else falls through to the next
strategy. -/

def runChain (att : Strategy → Option WavInfo) :
    List Strategy → Option (Strategy × WavInfo)
  | [] => none
  | s :: rest =>
    match att s with
    | some w => if artifactAccepted w then some (s, w) else runChain att rest
    | none => runChain att rest

/- The single exception raised at lines 351-362 when every strategy failed.
Its text is a fixed literal, independent of which strategies ran and of their
outcomes. -/

def exhaustMessage : String :=
  "❌ **No se pudo convertir el archivo después de 4 intentos**\n\n**Posibles causas:**\n1. Archivo corrupto o incompleto\n2. Formato no estándar\n3. Encriptación o protección\n4. FFmpeg no instalado correctamente\n\n**💡 Soluciones:**\n- Reproduce el audio en tu dispositivo primero\n- Convierte a MP3/WAV con otra herramienta\n- Verifica que no esté protegido/encriptado"

/- `convert_to_wav_debug` returns the winning `wav_path` or raises the fixed
exception.  The second component lists the temporary files the call leaves on
disk: `wav_path` (created by `tempfile.mkstemp` at line 180) survives when the
function returns it to the caller; on exhaustion it is unlinked (lines 348-349)
and each two-step attempt removes its `raw_path` in a `finally` (lines
312-314), so nothing remains. -/

def convertRun (att : Strategy → Option WavInfo) (fn : List Char) :
    Except String (Strategy × WavInfo) × List String :=
  match runChain att (strategiesFor fn) with
  | some r => (Except.ok r, [("wav_path" : String)])
  | none => (Except.error exhaustMessage, [])

/- FormatSniffer: the batch variant computes
`audio_format = file_path.split('.')[-1].lower()` (src/app_streamlit.py line
47).  `splitOnDot` is Python `str.split('.')` and `lastSeg` the `[-1]` index
(the split list is never empty). -/

def splitOnDot : List Char → List (List Char)
  | [] => [[]]
  | c :: rest =>
    if c = '.' then [] :: splitOnDot rest
    else
      match splitOnDot rest with
      | [] => [[c]]
      | h :: t => (c :: h) :: t

def lastAux : List (List Char) → List Char
  | [] => []
  | [x] => x
  | _ :: y :: t => lastAux (y :: t)

def lastSeg (l : List Char) : List Char :=
  lastAux (splitOnDot l)

def audio_format (fp : List Char) : List Char :=
  lowerChars (lastSeg fp)

/-- Modelled from the spec: the repository contains no byte-inspecting format
sniffer; this definition follows the spec's §4.1 words — a leading byte window
is matched against the magic numbers of an Ogg-family container (`OggS`), a
RIFF container (`RIFF`), an ID3/MPEG prefix (`ID3`) and a FLAC prefix
(`fLaC`), falling back to the lower-cased filename extension — so that claim
C7 can compare it with what the code actually computes. -/
def detect_spec (bs : List Nat) (fp : List Char) : List Char :=
  if hasPre ([79, 103, 103, 83]) bs then ("ogg").toList
  else if hasPre ([82, 73, 70, 70]) bs then ("wav").toList
  else if hasPre ([73, 68, 51]) bs then ("mp3").toList
  else if hasPre ([102, 76, 97, 67]) bs then ("flac").toList
  else audio_format fp

/- Session records: both variants store per-job dictionaries with exactly the
keys `filename`, `transcription`, `language`, `timestamp` (src/app.py lines
678-683 and 700-705, src/app_streamlit.py lines 218-223); there is no status
field. -/

structure TransRecord where
  filename : List Char
  transcription : String
  language : String
  timestamp : String
deriving DecidableEq

/- Success classification is by string inspection of the transcript: the debug
variant counts a record successful when the text does not start with the
cross-mark character (src/app.py lines 584-587, 632, 689), the batch variant
when the substring Error does not occur in it (src/app_streamlit.py line
277). -/

def debugCounted (t : String) : Bool :=
  !(hasPre (("❌").toList) t.toList)

def batchCounted (t : String) : Bool :=
  !(hasSub (("Error").toList) t.toList)

def recDebugOk (r : TransRecord) : Bool :=
  debugCounted r.transcription

def recBatchOk (r : TransRecord) : Bool :=
  batchCounted r.transcription

def debugOkCount (l : List TransRecord) : Nat :=
  l.countP recDebugOk

def batchOkCount (l : List TransRecord) : Nat :=
  l.countP recBatchOk

/- TranscriptionClient oracles.  `adjust_for_ambient_noise` either succeeds,
raises `AttributeError` (the only class caught at src/app.py line 432) or
raises some other exception; `recognizer.recognize_google` either returns a
text, raises `sr.UnknownValueError` or raises `sr.RequestError`. -/

inductive CalibOutcome where
  | ok
  | attrError (m : String)
  | otherError (m : String)
deriving DecidableEq

inductive RemoteOutcome where
  | success (t : String)
  | unknownValue
  | requestError (m : String)
deriving DecidableEq

def calibAborts : CalibOutcome → Bool
  | CalibOutcome.otherError _ => true
  | _ => false

def isCalibOk : CalibOutcome → Bool
  | CalibOutcome.ok => true
  | _ => false

def isRemoteSuccess : RemoteOutcome → Bool
  | RemoteOutcome.success _ => true
  | _ => false

/- The literal result strings of the debug variant `transcribe_audio`
(src/app.py lines 385-515). -/

def emptyApiMsg : String :=
  "❌ La API devolvió respuesta vacía"

def emptyAudioMsg : String :=
  "❌ Error: Audio vacío o sin datos suficientes"

def noVoiceMsg : String :=
  "❌ **No se pudo entender el audio**\n\n**Posibles causas:**\n- No hay voz humana clara en el audio\n- Idioma seleccionado incorrecto\n- Mucho ruido de fondo\n- Audio de muy baja calidad\n\n**💡 Verifica:**\n- Descarga el WAV convertido (botón arriba) y escúchalo\n- Confirma que el idioma sea correcto\n- Prueba con un audio de prueba conocido"

def serviceMsg (e : String) : String :=
  "❌ **Error del servicio Google Speech:**\n" ++ e ++ "\n\n**Posibles causas:**\n- Sin conexión a internet\n- Límite de uso excedido (100 peticiones/día gratis)\n- Servicio temporalmente no disponible\n\n**💡 Soluciones:**\n- Verifica tu conexión\n- Espera unas horas si excediste el límite\n- Considera usar la API oficial con key"

/- One debug-variant transcription job: the filename, the per-strategy
conversion oracle, the calibration outcome, the length of
`audio_data.frame_data` and the remote-call outcome. -/

structure DebugJob where
  filename : List Char
  att : Strategy → Option WavInfo
  calib : CalibOutcome
  frameLen : Nat
  remote : RemoteOutcome

/- `transcribe_audio` of src/app.py after a successful conversion and
calibration handling: the `< 100` frame check (line 442), then the remote call
with the empty-string guard `if text:` (lines 449-461) and the two error
handlers.  Every one of these paths runs the `finally` block (lines 507-515)
with `filename` already stored in `st.session_state.debug_wavs` (line 406), so
the temp `wav_path` is never unlinked here. -/

def debugAfterCalib (j : DebugJob) : String × List String :=
  if j.frameLen < 100 then
    (emptyAudioMsg, [("wav_path" : String)])
  else
    match j.remote with
    | RemoteOutcome.success t =>
      (if t = ("") then emptyApiMsg else t, [("wav_path" : String)])
    | RemoteOutcome.unknownValue => (noVoiceMsg, [("wav_path" : String)])
    | RemoteOutcome.requestError e => (serviceMsg e, [("wav_path" : String)])

/- `transcribe_audio` of src/app.py (lines 385-515).  A conversion failure
raises inside the outer `try`, producing the result string
`"❌ Error: " ++ str(e)` (line 505) with `wav_path` still `None` (nothing to
clean).  A calibration exception other than `AttributeError` reaches the same
outer handler; an `AttributeError` only prints a warning and continues
(lines 427-434). -/

def debug_transcribe (j : DebugJob) : String × List String :=
  match (convertRun j.att j.filename).1 with
  | Except.error e => (("❌ Error: ") ++ e, [])
  | Except.ok _ =>
    match j.calib with
    | CalibOutcome.otherError m =>
      (("❌ Error: ") ++ m, [("wav_path" : String)])
    | CalibOutcome.ok => debugAfterCalib j
    | CalibOutcome.attrError _ => debugAfterCalib j

/- One batch-variant transcription job (src/app_streamlit.py).  `path` is the
temp file name, `convertOk` tells whether the pydub decode/export of
`convert_to_wav` succeeded when it runs. -/

structure StreamJob where
  path : List Char
  convertOk : Bool
  calib : CalibOutcome
  remote : RemoteOutcome
deriving DecidableEq

/- `transcribe_audio` of src/app_streamlit.py (lines 68-97) combined with
`convert_to_wav` (lines 44-66).  When the extension is `wav` the input path is
used directly; otherwise pydub writes `file_path + '.wav'`.  The
`os.remove(wav_path)` at lines 87-88 runs only on the success path: the
`except` handlers for `UnknownValueError`, `RequestError` and `Exception`
return without removing it, so the converted WAV stays on disk on every
failure path.  The second component lists the temp files the call leaves
behind. -/

def stream_transcribe (j : StreamJob) : String × List (List Char) :=
  if audio_format j.path = ("wav").toList then
    match j.calib with
    | CalibOutcome.ok =>
      match j.remote with
      | RemoteOutcome.success t => (t, [])
      | RemoteOutcome.unknownValue => (("No se pudo reconocer el audio"), [])
      | RemoteOutcome.requestError e =>
        (("Error del servicio: ") ++ e, [])
    | CalibOutcome.attrError m => (("Error inesperado: ") ++ m, [])
    | CalibOutcome.otherError m => (("Error inesperado: ") ++ m, [])
  else if !j.convertOk then
    (("Error en conversión a WAV"), [])
  else
    match j.calib with
    | CalibOutcome.ok =>
      match j.remote with
      | RemoteOutcome.success t => (t, [])
      | RemoteOutcome.unknownValue =>
        (("No se pudo reconocer el audio"), [j.path ++ (".wav").toList])
      | RemoteOutcome.requestError e =>
        (("Error del servicio: ") ++ e, [j.path ++ (".wav").toList])
    | CalibOutcome.attrError m =>
      (("Error inesperado: ") ++ m, [j.path ++ (".wav").toList])
    | CalibOutcome.otherError m =>
      (("Error inesperado: ") ++ m, [j.path ++ (".wav").toList])

/- BatchOrchestrator: `process_files` of src/app_streamlit.py (lines 193-278).
Per job the loop first updates the progress bar and the status text with
`(i+1, total, filename)` (lines 204-206), then runs the job inside a `try`.
An unexpected exception can strike before the result dictionary is appended
(nothing is recorded for the job) or after it (the record is already in); the
`except` at line 268 only displays the error and the loop continues. -/

inductive JobOutcome where
  | ok (t : String)
  | raiseBefore (m : String)
  | raiseAfter (t : String) (m : String)
deriving DecidableEq

def isRaiseBefore : JobOutcome → Bool
  | JobOutcome.raiseBefore _ => true
  | _ => false

def jobRecord (lang ts : String) (name : List Char) (o : JobOutcome) :
    List TransRecord :=
  match o with
  | JobOutcome.ok t => [⟨name, t, lang, ts⟩]
  | JobOutcome.raiseBefore _ => []
  | JobOutcome.raiseAfter t _ => [⟨name, t, lang, ts⟩]

def processFilesResults (lang ts : String) :
    List (List Char × JobOutcome) → List TransRecord → List TransRecord
  | [], acc => acc
  | (name, o) :: rest, acc =>
    processFilesResults lang ts rest (acc ++ jobRecord lang ts name o)

/- The observable event trace of `process_files`: the progress update, the
transcription call and the append, in the order the source performs them. -/

inductive BEvent where
  | progress (idx total : Nat) (name : List Char)
  | run (name : List Char)
  | recorded (name : List Char)
  | errorShown (name : List Char) (m : String)
deriving DecidableEq

def jobEvents (i total : Nat) (name : List Char) (o : JobOutcome) :
    List BEvent :=
  BEvent.progress (i + 1) total name ::
    match o with
    | JobOutcome.ok _ => [BEvent.run name, BEvent.recorded name]
    | JobOutcome.raiseBefore m => [BEvent.errorShown name m]
    | JobOutcome.raiseAfter _ m =>
      [BEvent.run name, BEvent.recorded name, BEvent.errorShown name m]

def batchEventsAux (total : Nat) :
    Nat → List (List Char × JobOutcome) → List BEvent
  | _, [] => []
  | i, (name, o) :: rest =>
    jobEvents i total name o ++ batchEventsAux total (i + 1) rest

def batchEvents (jobs : List (List Char × JobOutcome)) : List BEvent :=
  batchEventsAux jobs.length 0 jobs

def progressName? : BEvent → Option (List Char)
  | BEvent.progress _ _ n => some n
  | _ => none

def progressIdx? : BEvent → Option Nat
  | BEvent.progress i _ _ => some i
  | _ => none

def progressNames (evs : List BEvent) : List (List Char) :=
  evs.filterMap progressName?

def progressIdxs (evs : List BEvent) : List Nat :=
  evs.filterMap progressIdx?

/-- Modelled from the spec: claim C9 states that the progress callback is
invoked after the corresponding job completes; this predicate checks a trace
for that property — every progress event must name a job that has already
produced its completion event (`recorded` or `errorShown`). -/
def progressAfterDone (ds : List (List Char)) : List BEvent → Bool
  | [] => true
  | BEvent.progress _ _ n :: rest => ds.contains n && progressAfterDone ds rest
  | BEvent.recorded n :: rest => progressAfterDone (n :: ds) rest
  | BEvent.errorShown n _ :: rest => progressAfterDone (n :: ds) rest
  | BEvent.run _ :: rest => progressAfterDone ds rest

/- JobRunner of the debug variant: `process_single_file` of src/app.py (lines
661-713).  The normal path appends the transcription; the `except` handler
appends a record whose text is `"❌ Error crítico: " ++ str(e)`, so exactly one
record is stored either way. -/

inductive SingleOutcome where
  | normal (t : String)
  | critical (m : String)
deriving DecidableEq

def process_single_file (lang ts : String) (name : List Char)
    (o : SingleOutcome) (results : List TransRecord) : List TransRecord :=
  match o with
  | SingleOutcome.normal t => results ++ [⟨name, t, lang, ts⟩]
  | SingleOutcome.critical m =>
    results ++ [⟨name, ("❌ Error crítico: ") ++ m, lang, ts⟩]

/- Auxiliary: index-tagging used to state the shape of the batch trace. -/

def withIdx : Nat → List (List Char × JobOutcome) →
    List (Nat × (List Char × JobOutcome))
  | _, [] => []
  | i, jb :: rest => (i, jb) :: withIdx (i + 1) rest

/- Concrete oracles and inputs used by the witnesses and counterexamples. -/

def attAllFail : Strategy → Option WavInfo :=
  fun _ => none

def chainWitnessAtt : Strategy → Option WavInfo :=
  fun s => if s = Strategy.standard then some ⟨1, 2, 16000, 32000, 64000⟩
    else none

def attOkW : Strategy → Option WavInfo :=
  fun _ => some ⟨1, 2, 16000, 32000, 64000⟩

def djEmpty : DebugJob :=
  ⟨("voz.wav").toList, attOkW, CalibOutcome.ok, 5000,
    RemoteOutcome.success ("")⟩

def djOther : DebugJob :=
  ⟨("voz.wav").toList, attOkW, CalibOutcome.otherError ("fallo de audio"),
    5000, RemoteOutcome.success ("hola")⟩

def sjEmpty : StreamJob :=
  ⟨("voz.ogg").toList, true, CalibOutcome.ok, RemoteOutcome.success ("")⟩

def sjLeak : StreamJob :=
  ⟨("voz.ogg").toList, true, CalibOutcome.ok, RemoteOutcome.unknownValue⟩

def sjCalibFail : StreamJob :=
  ⟨("voz.ogg").toList, true,
    CalibOutcome.attrError ("módulo audioop incompatible"),
    RemoteOutcome.success ("hola mundo")⟩

def sjCalibGood : StreamJob :=
  ⟨("voz.ogg").toList, true, CalibOutcome.ok,
    RemoteOutcome.success ("hola mundo")⟩

def jobsMixed : List (List Char × JobOutcome) :=
  [(("a.mp3").toList, JobOutcome.raiseBefore ("disco lleno")),
   (("b.mp3").toList, JobOutcome.ok ("hola"))]

def jobsOne : List (List Char × JobOutcome) :=
  [(("a.mp3").toList, JobOutcome.ok ("hola"))]

def oggBytes : List Nat :=
  [79, 103, 103, 83, 0, 0, 0, 0]

def recEmoji : TransRecord :=
  ⟨("voz.ogg").toList, ("❌ a veces la gente envía este emoji"), ("es-CL"),
    ("2024-01-01 10:00:00")⟩

def recErrWord : TransRecord :=
  ⟨("voz2.ogg").toList, ("el mensaje dice Error 404 en la pantalla"),
    ("es-CL"), ("2024-01-01 10:05:00")⟩

/- Theorems. -/

/-- Claim C1 (confirmed): a produced WAV artifact submitted to validation is
rejected exactly when its byte size is at most 1000 (the ≈1 KB gate every call
site applies before `verify_wav_file`), its duration `frames / framerate` is
below 0.1 s, or its frame count is below 100; an artifact passing all three
checks is accepted even when its channel count is not 1 or its sample rate is
not 16000 Hz — the verdict does not depend on the channel or sample-width
fields at all. -/
theorem claim1_validator (w : WavInfo) (h : 0 < w.framerate) :
    (artifactAccepted w = true ↔
        1000 < w.size ∧ w.framerate ≤ 10 * w.frames ∧ 100 ≤ w.frames)
    ∧ (artifactAccepted w = false ↔
        w.size ≤ 1000 ∨ 10 * w.frames < w.framerate ∨ w.frames < 100)
    ∧ (∀ c sw : Nat,
        artifactAccepted ⟨c, sw, w.framerate, w.frames, w.size⟩ =
          artifactAccepted w) := by
  have hne : w.framerate ≠ 0 := by omega
  refine ⟨?_, ?_, fun c sw => rfl⟩
  · unfold artifactAccepted sizeGate verify_wav_file
    rw [if_neg hne]
    by_cases h1 : 10 * w.frames < w.framerate <;>
      by_cases h2 : w.frames < 100 <;>
      by_cases h3 : 1000 < w.size <;>
      (simp [h1, h2, h3]; try omega)
  · unfold artifactAccepted sizeGate verify_wav_file
    rw [if_neg hne]
    by_cases h1 : 10 * w.frames < w.framerate <;>
      by_cases h2 : w.frames < 100 <;>
      by_cases h3 : 1000 < w.size <;>
      (simp [h1, h2, h3]; try omega)

/-- Claim C1 witness: a 44100 Hz stereo artifact (both soft-warning
deviations) with 100000 frames and 5000 bytes passes validation. -/
theorem claim1_validator_witness :
    artifactAccepted ⟨2, 2, 44100, 100000, 5000⟩ = true
    ∧ 0 < (44100 : Nat)
    ∧ ((artifactAccepted ⟨2, 2, 44100, 100000, 5000⟩ = true ↔
          1000 < (5000 : Nat) ∧ (44100 : Nat) ≤ 10 * 100000 ∧
            (100 : Nat) ≤ 100000)
      ∧ (artifactAccepted ⟨2, 2, 44100, 100000, 5000⟩ = false ↔
          (5000 : Nat) ≤ 1000 ∨ 10 * 100000 < (44100 : Nat) ∨
            (100000 : Nat) < 100)
      ∧ (∀ c sw : Nat,
          artifactAccepted ⟨c, sw, 44100, 100000, 5000⟩ =
            artifactAccepted ⟨2, 2, 44100, 100000, 5000⟩)) :=
  ⟨by decide, by decide, claim1_validator ⟨2, 2, 44100, 100000, 5000⟩ (by decide)⟩

/-- Helper: a run of the strategy chain that returns an artifact returns the
first strategy of the list whose attempt produced a file that passed
validation; every earlier strategy either produced no file or produced one
that failed validation. -/
theorem runChain_spec (att : Strategy → Option WavInfo) :
    ∀ (l : List Strategy) (s : Strategy) (w : WavInfo),
      runChain att l = some (s, w) →
      att s = some w ∧ artifactAccepted w = true ∧
        ∃ pre post, l = pre ++ s :: post ∧
          ∀ t ∈ pre, ∀ w2, att t = some w2 → artifactAccepted w2 = false := by
  intro l
  induction l with
  | nil => intro s w h; simp [runChain] at h
  | cons a rest ih =>
    intro s w h
    rw [runChain] at h
    cases ha : att a with
    | none =>
      rw [ha] at h
      obtain ⟨h1, h2, pre, post, hl, hpre⟩ := ih s w h
      refine ⟨h1, h2, a :: pre, post, by rw [hl]; rfl, ?_⟩
      intro t ht w2 hw2
      rcases List.mem_cons.mp ht with rfl | ht2
      · rw [ha] at hw2; cases hw2
      · exact hpre t ht2 w2 hw2
    | some w1 =>
      rw [ha] at h
      dsimp only at h
      by_cases hv : artifactAccepted w1 = true
      · rw [if_pos hv] at h
        injection h with h2
        injection h2 with hs hw
        subst hs; subst hw
        exact ⟨ha, hv, [], rest, rfl, by intro t ht; cases ht⟩
      · rw [if_neg hv] at h
        obtain ⟨h1, h2, pre, post, hl, hpre⟩ := ih s w h
        refine ⟨h1, h2, a :: pre, post, by rw [hl]; rfl, ?_⟩
        intro t ht w2 hw2
        rcases List.mem_cons.mp ht with rfl | ht2
        · rw [ha] at hw2
          injection hw2 with hw2e
          subst hw2e
          cases hb : artifactAccepted w1 with
          | false => rfl
          | true => exact absurd hb hv
        · exact hpre t ht2 w2 hw2

/-- Claim C2 (confirmed): the chain tries the strategies in a fixed
conditional order — the permissive ffmpeg transcode is in the list, at the
head, exactly when the filename matches the messaging-app naming heuristics
or its lower-cased name ends in an Ogg-family extension; then the standard
ffmpeg transcode, the pydub decode and the two-stage raw-PCM pass, strictly
in sequence.  When the chain returns an artifact, the returning strategy
produced it, it passed validation, and every strategy before it in the list
either produced nothing or produced an artifact that failed validation. -/
theorem claim2_chain (fn : List Char) (att : Strategy → Option WavInfo)
    (s : Strategy) (w : WavInfo)
    (h : runChain att (strategiesFor fn) = some (s, w)) :
    (strategiesFor fn =
        if is_opus fn || is_whatsapp fn then
          [Strategy.permissive, Strategy.standard, Strategy.pydub,
            Strategy.twoStep]
        else [Strategy.standard, Strategy.pydub, Strategy.twoStep])
    ∧ att s = some w ∧ artifactAccepted w = true
    ∧ ∃ pre post, strategiesFor fn = pre ++ s :: post ∧
        ∀ t ∈ pre, ∀ w2, att t = some w2 → artifactAccepted w2 = false := by
  obtain ⟨h1, h2, pre, post, hl, hpre⟩ := runChain_spec att _ s w h
  refine ⟨?_, h1, h2, pre, post, hl, hpre⟩
  unfold strategiesFor
  cases hc : is_opus fn || is_whatsapp fn <;> simp [hc]

/-- Claim C2 witness: for `nota.ogg` the permissive strategy is first; with an
oracle whose permissive attempt fails and whose standard attempt yields a
valid artifact, the chain stops at the standard strategy with the permissive
strategy as the failed prefix. -/
theorem claim2_chain_witness :
    runChain chainWitnessAtt (strategiesFor (("nota.ogg").toList)) =
      some (Strategy.standard, ⟨1, 2, 16000, 32000, 64000⟩)
    ∧ ((strategiesFor (("nota.ogg").toList) =
          if is_opus (("nota.ogg").toList) ||
              is_whatsapp (("nota.ogg").toList) then
            [Strategy.permissive, Strategy.standard, Strategy.pydub,
              Strategy.twoStep]
          else [Strategy.standard, Strategy.pydub, Strategy.twoStep])
      ∧ chainWitnessAtt Strategy.standard = some ⟨1, 2, 16000, 32000, 64000⟩
      ∧ artifactAccepted ⟨1, 2, 16000, 32000, 64000⟩ = true
      ∧ ∃ pre post, strategiesFor (("nota.ogg").toList) =
            pre ++ Strategy.standard :: post ∧
          ∀ t ∈ pre, ∀ w2, chainWitnessAtt t = some w2 →
            artifactAccepted w2 = false) :=
  ⟨by decide, claim2_chain (("nota.ogg").toList) chainWitnessAtt _ _ (by decide)⟩

/-- Claim C3 counterexample: the aggregated error raised on exhaustion cannot
describe every attempted strategy and its outcome — two exhausted runs that
attempted different strategy lists (`voz.ogg` runs 4 strategies, `voz.mp3`
only 3) raise the very same fixed message, and that message even claims
"4 intentos" for the three-strategy run. -/
theorem claim3_fixed_message :
    strategiesFor (("voz.ogg").toList) ≠ strategiesFor (("voz.mp3").toList)
    ∧ (convertRun attAllFail (("voz.ogg").toList)).1 =
        Except.error exhaustMessage
    ∧ (convertRun attAllFail (("voz.mp3").toList)).1 =
        Except.error exhaustMessage
    ∧ (strategiesFor (("voz.mp3").toList)).length = 3
    ∧ hasSub (("4 intentos").toList) exhaustMessage.toList = true :=
  ⟨by decide, rfl, rfl, by decide, by decide⟩

/-- Claim C3 as amended: when every strategy fails, the chain deletes all its
intermediate temporary files (the pre-created `wav_path` and each two-step
`raw_path`) and the job fails with a single error, but the error carries the
fixed diagnostic text `exhaustMessage` — possible causes and suggested
remedies, always citing 4 attempts — independent of which strategies were
attempted and of their outcomes. -/
theorem claim3_exhaust_cleanup (att : Strategy → Option WavInfo)
    (fn : List Char) (h : runChain att (strategiesFor fn) = none) :
    convertRun att fn = (Except.error exhaustMessage, []) := by
  unfold convertRun
  rw [h]

/-- Claim C3 witness: an all-failing oracle on `voz.ogg` exhausts the chain,
raises the fixed message and leaves no temporary file behind. -/
theorem claim3_exhaust_cleanup_witness :
    runChain attAllFail (strategiesFor (("voz.ogg").toList)) = none
    ∧ convertRun attAllFail (("voz.ogg").toList) =
        (Except.error exhaustMessage, []) :=
  ⟨rfl, claim3_exhaust_cleanup attAllFail (("voz.ogg").toList) rfl⟩

/-- Helper: `lastAux` skips the head of a non-final list. -/
theorem lastAux_cons (x : List Char) (r : List (List Char)) (h : r ≠ []) :
    lastAux (x :: r) = lastAux r := by
  cases r with
  | nil => exact absurd rfl h
  | cons y t => rfl

/-- Helper: Python `str.split` never returns an empty list. -/
theorem splitOnDot_ne_nil : ∀ l : List Char, splitOnDot l ≠ [] := by
  intro l
  induction l with
  | nil => simp [splitOnDot]
  | cons c rest ih =>
    rw [splitOnDot]
    by_cases hc : c = '.'
    · rw [if_pos hc]; simp
    · rw [if_neg hc]
      cases hr : splitOnDot rest with
      | nil => exact absurd hr ih
      | cons a t =>
        show (c :: a) :: t ≠ []
        simp

/-- Helper: a list containing a dot splits into at least two segments. -/
theorem splitOnDot_len2 (l : List Char) (h : hasDot l = true) :
    2 ≤ (splitOnDot l).length := by
  induction l with
  | nil => simp [hasDot] at h
  | cons c rest ih =>
    rw [splitOnDot]
    by_cases hc : c = '.'
    · rw [if_pos hc]
      have hlen : 0 < (splitOnDot rest).length :=
        List.length_pos.mpr (splitOnDot_ne_nil rest)
      simp
      omega
    · rw [if_neg hc]
      have hcb : (c == '.') = false := beq_eq_false_iff_ne.mpr hc
      have hrest : hasDot rest = true := by
        simp only [hasDot, hcb, Bool.false_or] at h
        exact h
      have h2 := ih hrest
      cases hr : splitOnDot rest with
      | nil => exact absurd hr (splitOnDot_ne_nil rest)
      | cons a t =>
        rw [hr] at h2
        show 2 ≤ ((c :: a) :: t).length
        simp at h2 ⊢
        omega

/-- Helper: appending a dot makes `hasDot` true. -/
theorem hasDot_append_dot (fp seg : List Char) :
    hasDot (fp ++ '.' :: seg) = true := by
  induction fp with
  | nil => simp [hasDot]
  | cons c fp ih => simp [hasDot, ih]

/-- Helper: the segment after the last dot ignores everything before a dot. -/
theorem lastSeg_append (fp seg : List Char) :
    lastSeg (fp ++ '.' :: seg) = lastSeg seg := by
  induction fp with
  | nil =>
    show lastSeg ('.' :: seg) = lastSeg seg
    unfold lastSeg
    have hsp : splitOnDot ('.' :: seg) = [] :: splitOnDot seg := by
      rw [splitOnDot, if_pos rfl]
    rw [hsp]
    exact lastAux_cons [] _ (splitOnDot_ne_nil seg)
  | cons c fp ih =>
    show lastSeg (c :: (fp ++ '.' :: seg)) = lastSeg seg
    unfold lastSeg
    rw [splitOnDot]
    by_cases hc : c = '.'
    · rw [if_pos hc]
      rw [lastAux_cons [] _ (splitOnDot_ne_nil (fp ++ '.' :: seg))]
      exact ih
    · rw [if_neg hc]
      have hlen := splitOnDot_len2 (fp ++ '.' :: seg) (hasDot_append_dot fp seg)
      cases hr : splitOnDot (fp ++ '.' :: seg) with
      | nil => exact absurd hr (splitOnDot_ne_nil _)
      | cons a t =>
        rw [hr] at hlen
        have ht : t ≠ [] := by
          intro he
          subst he
          simp at hlen
        show lastAux ((c :: a) :: t) = lastAux (splitOnDot seg)
        rw [lastAux_cons (c :: a) t ht]
        have hih := ih
        unfold lastSeg at hih
        rw [hr] at hih
        rw [lastAux_cons a t ht] at hih
        exact hih

/-- Helper: a dot-free list is a single split segment. -/
theorem splitOnDot_no_dot (l : List Char) (h : hasDot l = false) :
    splitOnDot l = [l] := by
  induction l with
  | nil => rfl
  | cons c rest ih =>
    simp only [hasDot, Bool.or_eq_false_iff] at h
    obtain ⟨h1, h2⟩ := h
    have hc : ¬ c = '.' := by
      intro he
      subst he
      simp at h1
    rw [splitOnDot, if_neg hc, ih h2]

/-- Claim C7 counterexample: nothing in the repository inspects leading bytes.
A file whose bytes begin with the Ogg magic number but whose name is
`voz.mp3` is tagged `mp3` by the code (extension only), while the
spec-described sniffer would tag it `ogg`; the debug variant's heuristics
likewise see nothing Ogg-like or messaging-like in that name. -/
theorem claim7_bytes_ignored :
    detect_spec oggBytes (("voz.mp3").toList) = ("ogg").toList
    ∧ audio_format (("voz.mp3").toList) = ("mp3").toList
    ∧ detect_spec oggBytes (("voz.mp3").toList) ≠
        audio_format (("voz.mp3").toList)
    ∧ is_opus (("voz.mp3").toList) = false
    ∧ is_whatsapp (("voz.mp3").toList) = false := by
  refine ⟨by decide, by decide, by decide, by decide, by decide⟩

/-- Claim C7 as amended: format detection derives the tag from the filename
alone — the batch variant lower-cases the text after the last dot, and when
the name has no dot at all it returns the whole lower-cased name (it never
fails); no byte window is inspected and the computation is pure. -/
theorem claim7_extension_only :
    (∀ fp seg : List Char, hasDot seg = false →
        audio_format (fp ++ '.' :: seg) = lowerChars seg)
    ∧ (∀ fp : List Char, hasDot fp = false →
        audio_format fp = lowerChars fp) := by
  constructor
  · intro fp seg h
    unfold audio_format
    rw [lastSeg_append]
    unfold lastSeg
    rw [splitOnDot_no_dot seg h]
    rfl
  · intro fp h
    unfold audio_format lastSeg
    rw [splitOnDot_no_dot fp h]
    rfl

/-- Claim C7 witness: `voz.MP3` detects as `mp3`, the lower-cased extension. -/
theorem claim7_extension_only_witness :
    hasDot (("MP3").toList) = false
    ∧ audio_format ((("voz").toList) ++ '.' :: (("MP3").toList)) =
        lowerChars (("MP3").toList) :=
  ⟨by decide, claim7_extension_only.1 (("voz").toList) (("MP3").toList) (by decide)⟩

/-- Claim C4 counterexample: in the batch variant a remote call that succeeds
with an empty string produces the empty string as the stored result, and the
summary classifier counts it as a success — not as `Unrecognized`, not as any
failure. -/
theorem claim4_empty_counted_success :
    (stream_transcribe sjEmpty).1 = ("")
    ∧ batchCounted ((stream_transcribe sjEmpty).1) = true :=
  ⟨by decide, by decide⟩

/-- Claim C4 as amended: only the debug variant enforces the empty-transcript
rule — a successful remote call returning the empty string yields the failure
message `emptyApiMsg`, which its classifier counts as a failure; the batch
variant returns the empty string verbatim and its classifier counts the job
as a success. -/
theorem claim4_empty_rule :
    (∀ j : DebugJob, (runChain j.att (strategiesFor j.filename)).isSome = true →
        calibAborts j.calib = false → 100 ≤ j.frameLen →
        j.remote = RemoteOutcome.success ("") →
        (debug_transcribe j).1 = emptyApiMsg ∧
          debugCounted ((debug_transcribe j).1) = false)
    ∧ (∀ j : StreamJob, j.convertOk = true → j.calib = CalibOutcome.ok →
        j.remote = RemoteOutcome.success ("") →
        (stream_transcribe j).1 = ("") ∧
          batchCounted ((stream_transcribe j).1) = true) := by
  constructor
  · intro j h1 h2 h3 h4
    obtain ⟨r, hr⟩ := Option.isSome_iff_exists.mp h1
    have hconv : (convertRun j.att j.filename).1 = Except.ok r := by
      unfold convertRun
      rw [hr]
    have hres : (debug_transcribe j).1 = emptyApiMsg := by
      unfold debug_transcribe
      rw [hconv]
      cases hcal : j.calib with
      | otherError m => rw [hcal] at h2; simp [calibAborts] at h2
      | ok =>
        unfold debugAfterCalib
        rw [if_neg (by omega : ¬ j.frameLen < 100), h4]
        simp
      | attrError m =>
        unfold debugAfterCalib
        rw [if_neg (by omega : ¬ j.frameLen < 100), h4]
        simp
    refine ⟨hres, ?_⟩
    rw [hres]
    decide
  · intro j h1 h2 h3
    have hres : (stream_transcribe j).1 = ("") := by
      unfold stream_transcribe
      rw [h2, h3, h1]
      by_cases hw : audio_format j.path = ("wav").toList
      · rw [if_pos hw]
      · rw [if_neg hw]
        simp
    refine ⟨hres, ?_⟩
    rw [hres]
    decide

/-- Claim C4 witness: both conjuncts at concrete jobs — the debug variant maps
the empty success to `emptyApiMsg` (a counted failure), the batch variant
stores the empty string and counts it as a success. -/
theorem claim4_empty_rule_witness :
    (runChain djEmpty.att (strategiesFor djEmpty.filename)).isSome = true
    ∧ calibAborts djEmpty.calib = false
    ∧ 100 ≤ djEmpty.frameLen
    ∧ ((debug_transcribe djEmpty).1 = emptyApiMsg ∧
        debugCounted ((debug_transcribe djEmpty).1) = false)
    ∧ ((stream_transcribe sjEmpty).1 = ("") ∧
        batchCounted ((stream_transcribe sjEmpty).1) = true) :=
  ⟨by decide, by decide, by decide,
    claim4_empty_rule.1 djEmpty (by decide) (by decide) (by decide) rfl,
    claim4_empty_rule.2 sjEmpty rfl rfl rfl⟩

/-- Claim C6 counterexample: in the batch variant a job whose remote call
raises `UnknownValueError` returns its failure text with the converted
temporary WAV still on disk — the batch variant retains nothing for debug
download, so a temporary artifact outlives the job without being a debug
artifact. -/
theorem claim6_leak_on_failure :
    (stream_transcribe sjLeak).1 = ("No se pudo reconocer el audio")
    ∧ (stream_transcribe sjLeak).2 = [(("voz.ogg").toList) ++ (".wav").toList] :=
  ⟨by decide, by decide⟩

/-- Claim C6 as amended: temporary WAVs are not released on every exit path.
The batch variant deletes its converted WAV exactly when no conversion
happened (wav input or failed conversion) or when calibration and the remote
call both succeeded; every failure after a conversion leaves the file on
disk.  The debug variant, once conversion succeeds, always stores the
filename in the debug store before cleanup runs, so its temp WAV is never
unlinked by `transcribe_audio` — the debug download is served from an
in-memory byte copy, not from that file. -/
theorem claim6_cleanup_paths :
    (∀ j : StreamJob,
        (stream_transcribe j).2 =
          if (¬ audio_format j.path = ("wav").toList) ∧ j.convertOk = true ∧
              ¬ (isCalibOk j.calib = true ∧ isRemoteSuccess j.remote = true)
          then [j.path ++ (".wav").toList] else [])
    ∧ (∀ j : DebugJob,
        (debug_transcribe j).2 =
          if (runChain j.att (strategiesFor j.filename)).isSome = true
          then [("wav_path" : String)] else []) := by
  constructor
  · intro j
    by_cases hw : audio_format j.path = ("wav").toList
    · have hlhs : (stream_transcribe j).2 = [] := by
        unfold stream_transcribe
        rw [if_pos hw]
        cases j.calib <;> cases j.remote <;> rfl
      rw [hlhs, if_neg (fun hcon => hcon.1 hw)]
    · cases hc : j.convertOk with
      | false =>
        have hlhs : (stream_transcribe j).2 = [] := by
          unfold stream_transcribe
          rw [if_neg hw, hc]
          rfl
        rw [hlhs, if_neg ?_]
        intro hcon
        exact Bool.false_ne_true hcon.2.1
      | true =>
        cases hcal : j.calib with
        | ok =>
          cases hrem : j.remote with
          | success t =>
            have hlhs : (stream_transcribe j).2 = [] := by
              unfold stream_transcribe
              rw [if_neg hw, hc, hcal, hrem]
              rfl
            rw [hlhs, if_neg ?_]
            intro hcon
            exact hcon.2.2 ⟨rfl, rfl⟩
          | unknownValue =>
            have hlhs : (stream_transcribe j).2 =
                [j.path ++ (".wav").toList] := by
              unfold stream_transcribe
              rw [if_neg hw, hc, hcal, hrem]
              rfl
            rw [hlhs,
              if_pos ⟨hw, rfl, fun hpair => Bool.false_ne_true hpair.2⟩]
          | requestError e =>
            have hlhs : (stream_transcribe j).2 =
                [j.path ++ (".wav").toList] := by
              unfold stream_transcribe
              rw [if_neg hw, hc, hcal, hrem]
              rfl
            rw [hlhs,
              if_pos ⟨hw, rfl, fun hpair => Bool.false_ne_true hpair.2⟩]
        | attrError m =>
          have hlhs : (stream_transcribe j).2 =
              [j.path ++ (".wav").toList] := by
            unfold stream_transcribe
            rw [if_neg hw, hc, hcal]
            rfl
          rw [hlhs,
            if_pos ⟨hw, rfl, fun hpair => Bool.false_ne_true hpair.1⟩]
        | otherError m =>
          have hlhs : (stream_transcribe j).2 =
              [j.path ++ (".wav").toList] := by
            unfold stream_transcribe
            rw [if_neg hw, hc, hcal]
            rfl
          rw [hlhs,
            if_pos ⟨hw, rfl, fun hpair => Bool.false_ne_true hpair.1⟩]
  · intro j
    unfold debug_transcribe
    cases hr : runChain j.att (strategiesFor j.filename) with
    | none =>
      have hconv : (convertRun j.att j.filename).1 =
          Except.error exhaustMessage := by
        unfold convertRun
        rw [hr]
      rw [hconv]
      rfl
    | some r =>
      have hconv : (convertRun j.att j.filename).1 = Except.ok r := by
        unfold convertRun
        rw [hr]
      rw [hconv]
      cases j.calib with
      | otherError m => rfl
      | ok =>
        show (debugAfterCalib j).2 = _
        unfold debugAfterCalib
        by_cases hf : j.frameLen < 100
        · rw [if_pos hf]
          rfl
        · rw [if_neg hf]
          cases j.remote <;> rfl
      | attrError m =>
        show (debugAfterCalib j).2 = _
        unfold debugAfterCalib
        by_cases hf : j.frameLen < 100
        · rw [if_pos hf]
          rfl
        · rw [if_neg hf]
          cases j.remote <;> rfl

/-- Claim C8 counterexample: in the batch variant a calibration failure alone
aborts the job — the same job succeeds with `hola mundo` when calibration
works, but returns the `Error inesperado` text (counted as a failure) when
`adjust_for_ambient_noise` raises, because no handler guards that call. -/
theorem claim8_calib_aborts :
    (stream_transcribe sjCalibFail).1 =
      ("Error inesperado: módulo audioop incompatible")
    ∧ batchCounted ((stream_transcribe sjCalibFail).1) = false
    ∧ (stream_transcribe sjCalibGood).1 = ("hola mundo") :=
  ⟨by decide, by decide, by decide⟩

/-- Claim C8 as amended: only the debug variant tolerates a calibration
failure, and only an `AttributeError`: then it warns and proceeds exactly as
if calibration had succeeded.  Any other calibration exception in the debug
variant ends the job with a `❌ Error` result, and any calibration failure in
the batch variant ends it with an `Error inesperado` result. -/
theorem claim8_calib_rule :
    (∀ (j : DebugJob) (m : String),
        debug_transcribe { j with calib := CalibOutcome.attrError m } =
          debug_transcribe { j with calib := CalibOutcome.ok })
    ∧ (∀ (j : DebugJob) (m : String),
        (runChain j.att (strategiesFor j.filename)).isSome = true →
        j.calib = CalibOutcome.otherError m →
        (debug_transcribe j).1 = ("❌ Error: ") ++ m ∧
          debugCounted ((debug_transcribe j).1) = false)
    ∧ (∀ (j : StreamJob) (m : String),
        (j.calib = CalibOutcome.attrError m ∨
          j.calib = CalibOutcome.otherError m) →
        j.convertOk = true →
        (stream_transcribe j).1 = ("Error inesperado: ") ++ m) := by
  refine ⟨?_, ?_, ?_⟩
  · intro j m
    unfold debug_transcribe
    cases hr : (convertRun j.att j.filename).1 with
    | error e => rfl
    | ok r => rfl
  · intro j m h1 h2
    obtain ⟨r, hr⟩ := Option.isSome_iff_exists.mp h1
    have hconv : (convertRun j.att j.filename).1 = Except.ok r := by
      unfold convertRun
      rw [hr]
    have hres : (debug_transcribe j).1 = ("❌ Error: ") ++ m := by
      unfold debug_transcribe
      rw [hconv, h2]
    refine ⟨hres, ?_⟩
    rw [hres]
    unfold debugCounted
    simp [hasPre, String.toList]
  · intro j m h1 h2
    unfold stream_transcribe
    by_cases hw : audio_format j.path = ("wav").toList
    · rw [if_pos hw]
      rcases h1 with h1 | h1 <;> rw [h1]
    · rw [if_neg hw, h2]
      rcases h1 with h1 | h1 <;> rw [h1] <;> rfl

/-- Claim C8 witness: the debug variant at a concrete job whose calibration
raises a non-AttributeError exception ends with the `❌ Error` result, and a
concrete batch job whose calibration raises returns `Error inesperado`. -/
theorem claim8_calib_rule_witness :
    (runChain djOther.att (strategiesFor djOther.filename)).isSome = true
    ∧ djOther.calib = CalibOutcome.otherError ("fallo de audio")
    ∧ ((debug_transcribe djOther).1 = ("❌ Error: ") ++ ("fallo de audio") ∧
        debugCounted ((debug_transcribe djOther).1) = false)
    ∧ (stream_transcribe sjCalibFail).1 =
        ("Error inesperado: ") ++ ("módulo audioop incompatible") :=
  ⟨by decide, rfl,
    claim8_calib_rule.2.1 djOther ("fallo de audio") (by decide) rfl,
    claim8_calib_rule.2.2 sjCalibFail ("módulo audioop incompatible")
      (Or.inl rfl) rfl⟩

/-- Helper: the events of one job carry exactly one progress name, the job's
own filename. -/
theorem progressNames_jobEvents (i total : Nat) (name : List Char)
    (o : JobOutcome) :
    (jobEvents i total name o).filterMap progressName? = [name] := by
  cases o <;> simp [jobEvents, progressName?]

/-- Helper: the events of one job carry exactly one progress index, `i + 1`. -/
theorem progressIdxs_jobEvents (i total : Nat) (name : List Char)
    (o : JobOutcome) :
    (jobEvents i total name o).filterMap progressIdx? = [i + 1] := by
  cases o <;> simp [jobEvents, progressIdx?]

/-- Helper: every job of the batch contributes its progress name, in input
order. -/
theorem progressNames_aux (total : Nat) :
    ∀ (i : Nat) (jobs : List (List Char × JobOutcome)),
      progressNames (batchEventsAux total i jobs) = jobs.map Prod.fst := by
  intro i jobs
  induction jobs generalizing i with
  | nil => rfl
  | cons jb rest ih =>
    obtain ⟨name, o⟩ := jb
    show progressNames
        (jobEvents i total name o ++ batchEventsAux total (i + 1) rest) = _
    unfold progressNames
    rw [List.filterMap_append, progressNames_jobEvents]
    have h2 := ih (i + 1)
    unfold progressNames at h2
    rw [h2]
    rfl

/-- Helper: the progress indices of the batch trace are consecutive, starting
at `i + 1`. -/
theorem progressIdxs_aux (total : Nat) :
    ∀ (i : Nat) (jobs : List (List Char × JobOutcome)),
      progressIdxs (batchEventsAux total i jobs) =
        List.range' (i + 1) jobs.length := by
  intro i jobs
  induction jobs generalizing i with
  | nil => rfl
  | cons jb rest ih =>
    obtain ⟨name, o⟩ := jb
    show progressIdxs
        (jobEvents i total name o ++ batchEventsAux total (i + 1) rest) = _
    unfold progressIdxs
    rw [List.filterMap_append, progressIdxs_jobEvents]
    have h2 := ih (i + 1)
    unfold progressIdxs at h2
    rw [h2]
    rfl

/-- Helper: the batch trace is the concatenation of the per-job event blocks,
indexed in input order. -/
theorem batchAux_eq_join (total : Nat) :
    ∀ (i : Nat) (jobs : List (List Char × JobOutcome)),
      batchEventsAux total i jobs =
        ((withIdx i jobs).map
          (fun p => jobEvents p.1 total p.2.1 p.2.2)).flatten := by
  intro i jobs
  induction jobs generalizing i with
  | nil => rfl
  | cons jb rest ih =>
    obtain ⟨name, o⟩ := jb
    show jobEvents i total name o ++ batchEventsAux total (i + 1) rest = _
    rw [ih (i + 1)]
    rfl

/-- Claim C5 counterexample: a two-job batch whose first job raises before its
result is stored appends only one record — the session set grows by 1, not by
the number of jobs, and the failing job has no recorded result at all, even
though the loop went on to process the second job (both progress names are in
the trace). -/
theorem claim5_missing_record :
    (processFilesResults ("es-CL") ("2024-01-01 10:00:00") jobsMixed []).length
      = 1
    ∧ jobsMixed.length = 2
    ∧ (processFilesResults ("es-CL") ("2024-01-01 10:00:00") jobsMixed
        []).map TransRecord.filename = [("b.mp3").toList]
    ∧ progressNames (batchEvents jobsMixed) =
        [("a.mp3").toList, ("b.mp3").toList] :=
  ⟨by decide, by decide, by decide, by decide⟩

/-- Claim C5 as amended: in the debug variant each job appends exactly one
record (a critical error is stored as a `❌ Error crítico` record).  In the
batch variant each job appends at most one record: the session set grows by
the number of jobs whose processing reached the store — a job whose
unexpected exception strikes before the append contributes nothing — while
the loop still visits every job of the batch in order. -/
theorem claim5_batch_accounting :
    (∀ (lang ts : String) (jobs : List (List Char × JobOutcome))
        (acc : List TransRecord),
        (processFilesResults lang ts jobs acc).length =
          acc.length + jobs.countP (fun jb => !(isRaiseBefore jb.2)))
    ∧ (∀ jobs : List (List Char × JobOutcome),
        progressNames (batchEvents jobs) = jobs.map Prod.fst)
    ∧ (∀ (lang ts : String) (name : List Char) (o : SingleOutcome)
        (results : List TransRecord),
        (process_single_file lang ts name o results).length =
          results.length + 1) := by
  refine ⟨?_, ?_, ?_⟩
  · intro lang ts jobs
    induction jobs with
    | nil => intro acc; simp [processFilesResults]
    | cons jb rest ih =>
      intro acc
      obtain ⟨name, o⟩ := jb
      show (processFilesResults lang ts rest
          (acc ++ jobRecord lang ts name o)).length = _
      rw [ih (acc ++ jobRecord lang ts name o)]
      cases o <;>
        simp [jobRecord, isRaiseBefore, List.countP_cons] <;> omega
  · intro jobs
    exact progressNames_aux jobs.length 0 jobs
  · intro lang ts name o results
    cases o <;> simp [process_single_file]

/-- Claim C9 counterexample: for a one-job batch the trace starts with the
progress event and the job runs after it — the progress callback is invoked
before the job, not after its completion, so the claim's
progress-after-completion property fails on this trace. -/
theorem claim9_progress_precedes :
    batchEvents jobsOne =
      [BEvent.progress 1 1 (("a.mp3").toList),
        BEvent.run (("a.mp3").toList),
        BEvent.recorded (("a.mp3").toList)]
    ∧ progressAfterDone [] (batchEvents jobsOne) = false :=
  ⟨by decide, by decide⟩

/-- Claim C9 as amended: jobs are processed strictly in input order with no
overlap — the trace is the concatenation of per-job event blocks in input
order, the progress indices are exactly `1, 2, …, total` in order and each
job's block opens with the `(index + 1, total, filename)` progress update —
but the progress callback runs synchronously before each job starts, not
after it completes. -/
theorem claim9_sequential_order :
    (∀ jobs : List (List Char × JobOutcome),
        batchEvents jobs =
          ((withIdx 0 jobs).map
            (fun p => jobEvents p.1 jobs.length p.2.1 p.2.2)).flatten)
    ∧ (∀ jobs : List (List Char × JobOutcome),
        progressIdxs (batchEvents jobs) = List.range' 1 jobs.length)
    ∧ (∀ jobs : List (List Char × JobOutcome),
        progressNames (batchEvents jobs) = jobs.map Prod.fst) := by
  refine ⟨?_, ?_, ?_⟩
  · intro jobs
    exact batchAux_eq_join jobs.length 0 jobs
  · intro jobs
    exact progressIdxs_aux jobs.length 0 jobs
  · intro jobs
    exact progressNames_aux jobs.length 0 jobs

/-- Claim C10 (confirmed): a stored record is classified by string inspection
of its transcript alone — the debug variant counts it successful exactly when
the text does not start with the cross-mark, the batch variant exactly when
the substring `Error` does not occur in it; the classification depends on no
other field of the record (the stored record has no status field), and a
record classified as failed contributes nothing to the success count. -/
theorem claim10_string_classifier :
    (∀ (l : List TransRecord) (t : TransRecord),
        (recDebugOk t = false → debugOkCount (l ++ [t]) = debugOkCount l)
        ∧ (recDebugOk t = true →
            debugOkCount (l ++ [t]) = debugOkCount l + 1)
        ∧ (recBatchOk t = false → batchOkCount (l ++ [t]) = batchOkCount l)
        ∧ (recBatchOk t = true →
            batchOkCount (l ++ [t]) = batchOkCount l + 1))
    ∧ (∀ t u : TransRecord, t.transcription = u.transcription →
        recDebugOk t = recDebugOk u ∧ recBatchOk t = recBatchOk u)
    ∧ (∀ t : TransRecord,
        recDebugOk t = !(hasPre (("❌").toList) t.transcription.toList)
        ∧ recBatchOk t =
            !(hasSub (("Error").toList) t.transcription.toList)) := by
  refine ⟨?_, ?_, ?_⟩
  · intro l t
    refine ⟨fun h => ?_, fun h => ?_, fun h => ?_, fun h => ?_⟩ <;>
      simp [debugOkCount, batchOkCount, List.countP_append,
        List.countP_cons, h]
  · intro t u h
    constructor <;> simp [recDebugOk, recBatchOk, debugCounted, batchCounted, h]
  · intro t
    exact ⟨rfl, rfl⟩

/-- Claim C10 witness: a genuine transcript that happens to start with the
cross-mark is counted as a failure by the debug variant, and one that happens
to contain `Error` is counted as a failure by the batch variant. -/
theorem claim10_string_classifier_witness :
    recDebugOk recEmoji = false
    ∧ debugOkCount ([] ++ [recEmoji]) = debugOkCount []
    ∧ recBatchOk recErrWord = false
    ∧ batchOkCount ([] ++ [recErrWord]) = batchOkCount [] :=
  ⟨by decide, (claim10_string_classifier.1 [] recEmoji).1 (by decide),
    by decide, (claim10_string_classifier.1 [] recErrWord).2.2.1 (by decide)⟩
